import Mathlib

/-!
Verification of the zero-mcp HTTP request-dispatch pipeline.

This file shallowly embeds the dispatch core of the repository:
`src/http/http-transport.ts` (CORS, routing, JSON-RPC envelope handling,
method dispatch, tool invocation), `src/http/utilities.ts` (body reading,
response helpers, schema normalization) and `src/server.ts` (tool registry).

Modelling conventions:
- JSON documents are the inductive `Json` (numbers as integers; the claims
  never involve fractional arithmetic).
- A JavaScript exception is a `Thrown` value; `Except Thrown` models code
  that can throw.  `SyntaxError` (from `JSON.parse`), `ZodError` and other
  `Error` instances are distinguished because the dispatcher branches on
  `instanceof`.
- `performance.now()` readings are supplied as an explicit list of clock
  values consumed in call order (`takeNow`).
- Lifecycle hooks are optional callbacks that may themselves throw; every
  hook invocation is additionally recorded in an event trace, together with
  an instrumentation event marking actual tool-handler invocation, so that
  "hook X fired" / "handler was (not) invoked" are stateable.
- Zod validators are embedded as functions on `Json`; error messages from
  zod are abstracted to deterministic strings (the dispatcher only
  concatenates them into response messages, it never inspects them).
-/

namespace ZeroMcp

/-- JSON values as produced by `JSON.parse` (object keys already de-duplicated). -/
inductive Json where
  | null
  | bool (b : Bool)
  | num (n : Int)
  | str (s : String)
  | arr (items : List Json)
  | obj (fields : List (String × Json))


/-- Key lookup on a parsed JSON object (keys are unique after `JSON.parse`). -/
def lookupField (fields : List (String × Json)) (key : String) : Option Json :=
  match fields with
  | [] => none
  | (k, v) :: rest => if k = key then some v else lookupField rest key

/-- A JSON-RPC id: string or number (`id: z.union([z.string(), z.number()]).optional()`).
`Option RpcId` with `none` renders as JSON `null` in responses. -/
inductive RpcId where
  | str (s : String)
  | num (n : Int)


/-- The validated JSON-RPC request envelope (`JsonRpcRequestSchema`). -/
structure JsonRpcRequest where
  id : Option RpcId
  method : String
  params : Option Json


/-- `z.union([z.string(), z.number()])` applied to the `id` field. -/
def asRpcId : Json → Option RpcId
  | .str s => some (.str s)
  | .num n => some (.num n)
  | _ => none

/-- `params: z.union([z.record(z.unknown()), z.array(z.unknown())])`. -/
def isParamsShape : Json → Bool
  | .obj _ => true
  | .arr _ => true
  | _ => false

/-- The optional `id` field of the envelope: absent is fine, present must be
string or number. Returns `none` on a zod failure. -/
def parseEnvelopeId (fields : List (String × Json)) : Option (Option RpcId) :=
  match lookupField fields "id" with
  | none => some none
  | some v => (asRpcId v).map some

/-- The optional `params` field of the envelope: absent is fine, present must
be an object or an array. Returns `none` on a zod failure. -/
def parseEnvelopeParams (fields : List (String × Json)) : Option (Option Json) :=
  match lookupField fields "params" with
  | none => some none
  | some p => if isParamsShape p then some (some p) else none

/-- `JsonRpcRequestSchema.parse` (src/http/types.ts): object with `jsonrpc`
literal `"2.0"`, string `method`, optional string-or-number `id`, optional
object-or-array `params`.  `none` models a thrown `ZodError`. -/
def parseJsonRpcRequest (j : Json) : Option JsonRpcRequest :=
  match j with
  | .obj fields =>
    match lookupField fields "jsonrpc", lookupField fields "method" with
    | some (.str v), some (.str m) =>
      if v = "2.0" then
        match parseEnvelopeId fields, parseEnvelopeParams fields with
        | some i, some p => some ⟨i, m, p⟩
        | _, _ => none
      else none
    | _, _ => none
  | _ => none

/-- `clientInfo` of `InitializeParamsSchema`. -/
structure ClientInfo where
  name : String
  version : String


/-- Validated `initialize` params (`InitializeParamsSchema`). -/
structure InitializeParams where
  protocolVersion : String
  clientInfo : ClientInfo
  capabilities : Option Json


/-- `InitializeParamsSchema.safeParse(request.params)`; the input is the
optional `params` field (absent = `undefined`, which zod rejects).  Error
strings abstract the `ZodError.message`. -/
def parseInitializeParams : Option Json → Except String InitializeParams
  | none => .error "Required"
  | some (.obj fields) =>
    match lookupField fields "protocolVersion" with
    | some (.str pv) =>
      if pv.length = 0 then .error "protocolVersion is required"
      else
        match lookupField fields "clientInfo" with
        | some (.obj ci) =>
          match lookupField ci "name", lookupField ci "version" with
          | some (.str n), some (.str v) =>
            if n.length = 0 then .error "clientInfo.name is required"
            else if v.length = 0 then .error "clientInfo.version is required"
            else
              match lookupField fields "capabilities" with
              | none => .ok ⟨pv, ⟨n, v⟩, none⟩
              | some (.obj caps) => .ok ⟨pv, ⟨n, v⟩, some (.obj caps)⟩
              | some _ => .error "capabilities must be a record"
          | _, _ => .error "clientInfo is invalid"
        | _ => .error "clientInfo is required"
    | _ => .error "protocolVersion is required"
  | some _ => .error "Expected object"

/-- Validated `tools/call` params (`CallToolParamsSchema`). -/
structure CallToolParams where
  name : String
  arguments : Option Json


/-- `CallToolParamsSchema.safeParse(request.params)`: non-empty string
`name`, optional record `arguments`. -/
def parseCallToolParams : Option Json → Except String CallToolParams
  | none => .error "Required"
  | some (.obj fields) =>
    match lookupField fields "name" with
    | some (.str n) =>
      if n.length = 0 then .error "Tool name is required"
      else
        match lookupField fields "arguments" with
        | none => .ok ⟨n, none⟩
        | some (.obj args) => .ok ⟨n, some (.obj args)⟩
        | some _ => .error "arguments must be a record"
    | _ => .error "Tool name is required"
  | some _ => .error "Expected object"

/-- A thrown JavaScript value, classified exactly as far as the dispatcher's
`instanceof` checks distinguish: `parseErr` is a `SyntaxError` (from
`JSON.parse`), `zodErr` a `ZodError`, `jsError` any other `Error` instance,
and `nonError` a thrown non-`Error` value (which has no `.message`). -/
inductive Thrown where
  | parseErr (message : String)
  | zodErr (message : String)
  | jsError (message : String)
  | nonError (rendered : String)

/-- The third argument of `onToolCallError`: an `Error` object or a string
(`error: Error | string` in src/types.ts). -/
inductive ErrArg where
  | errVal (e : Thrown)
  | strVal (s : String)

/-- `ToolResponseContent` (src/types.ts): text, or base64 media with a MIME
type (`type` restricted to `image`/`audio` in the source union). -/
inductive Content where
  | text (s : String)
  | media (kind : String) (data : String) (mimeType : String)

/-- Observable events of one dispatch: every lifecycle-hook invocation, plus
the instrumentation-only `handlerInvoked` marking that the tool handler was
actually called. -/
inductive Event where
  | clientConnected (name version protocolVersion : String)
  | toolRegistered (name description : String)
  | toolCallStarted (name : String) (input : Json)
  | toolCallFinished (name : String) (input : Json) (result : List Content) (elapsedMs : Int)
  | toolCallError (name : String) (input : Json) (error : ErrArg) (elapsedMs : Int)
  | toolsListRequested
  | handlerInvoked (name : String) (input : Json)

/-- `ServerHooks` (src/types.ts).  Each slot is optional; a present hook is a
function whose result `none` means "returned normally" and `some e` means
"threw `e`" (hooks are plain JS callbacks and may throw). -/
structure Hooks where
  onClientConnected : Option (String → String → String → Option Thrown) := none
  onToolRegistered : Option (String → String → Option Thrown) := none
  onToolCallStarted : Option (String → Json → Option Thrown) := none
  onToolCallFinished : Option (String → Json → List Content → Int → Option Thrown) := none
  onToolCallError : Option (String → Json → ErrArg → Int → Option Thrown) := none
  onToolsListRequested : Option (Unit → Option Thrown) := none
  onServerError : Option (ErrArg → Option Thrown) := none

/-- The all-absent hook record. -/
def noHooks : Hooks := {}

/-- `ToolDefinition` (src/types.ts): `schema` is the Zod validator
(`safeParse`: coerced data on success, the serialized flattened diagnostics
string `JSON.stringify(error.flatten(), null, 2)` on failure), `handler` the
possibly-throwing tool implementation, and `rawJsonSchema` the output of the
external `zodToJsonSchema(schema, { target: 'jsonSchema7', name })` call. -/
structure ToolDef where
  name : String
  description : Option String
  schema : Json → Except String Json
  handler : Json → Except Thrown (List Content)
  rawJsonSchema : Json

/-- `McpServer.getTool` — `Map.get` over the insertion-ordered registry
(names are unique by construction of `registerTool`). -/
def getTool (tools : List ToolDef) (name : String) : Option ToolDef :=
  tools.find? (fun t => t.name == name)

/-- `McpServer.tool` (src/server.ts): duplicate names fail, otherwise the
definition is recorded and `onToolRegistered` notified with the description
defaulted to the empty string.  The returned events list is the hook trace
of this call. -/
def registerTool (hooks : Hooks) (tools : List ToolDef) (t : ToolDef) :
    Except String (List ToolDef) × List Event :=
  if tools.any (fun u => u.name == t.name) then
    (.error ("Tool '" ++ t.name ++ "' is already registered"), [])
  else
    (.ok (tools ++ [t]),
      match hooks.onToolRegistered with
      | none => []
      | some _ => [Event.toolRegistered t.name (t.description.getD "")])

/-- The normalized CORS policy: wildcard or an explicit allow-list. -/
inductive Origins where
  | wildcard
  | list (allowed : List String)

/-- `HttpTransport.normalizeAllowedOrigins`: an absent option or `'*'`
becomes the wildcard; an explicit array (even empty) stays an allow-list. -/
def normalizeAllowedOrigins (configured : Option Origins) : Origins :=
  match configured with
  | none => .wildcard
  | some .wildcard => .wildcard
  | some (.list l) => .list l

/-- `HttpTransportOptions` as seen by the transport after construction.
`customRoutes` records the (method, path) pairs of registered custom routes
as merged by `McpServer.start`; the handlers themselves are irrelevant here
because — as proved below — the transport never dispatches to them. -/
structure TransportOptions where
  path : String
  allowedOrigins : Origins
  hooks : Hooks
  customRoutes : List (String × String) := []

/-- A JSON-RPC response payload: `result` or `error {code, message}`. -/
inductive RpcPayload where
  | result (value : Json)
  | error (code : Int) (message : String)

/-- The HTTP response written by the dispatcher: a plain-text status
(`sendError`), the 204 preflight, or an HTTP-200 JSON-RPC envelope whose id
is rendered as `null` when `none`. -/
inductive HttpResponse where
  | plain (status : Int) (message : String)
  | noContent
  | rpc (id : Option RpcId) (payload : RpcPayload)

/-- `HttpTransport.ensureCors`: returns the headers set on the response and
`some response` when the request is rejected (HTTP 403), `none` when the
pipeline proceeds. -/
def ensureCors (origins : Origins) (origin : Option String) :
    List (String × String) × Option HttpResponse :=
  match origins with
  | .wildcard =>
    match origin with
    | some _ =>
      ([("Access-Control-Allow-Origin", "*"), ("Vary", "Origin"),
        ("Access-Control-Expose-Headers", "Mcp-Session-Id")], none)
    | none => ([("Access-Control-Expose-Headers", "Mcp-Session-Id")], none)
  | .list allowed =>
    match origin with
    | none => ([], none)
    | some o =>
      if allowed.contains o then
        ([("Access-Control-Allow-Origin", o), ("Access-Control-Allow-Credentials", "true"),
          ("Access-Control-Expose-Headers", "Mcp-Session-Id"), ("Vary", "Origin")], none)
      else ([], some (.plain 403 "Forbidden origin"))

/-- `HttpTransport.sendPreflightResponse` (the string-or-absent header case;
the node multi-value array case is not exercised by any claim). -/
def sendPreflightResponse (origins : Origins) (acrHeaders : Option String) :
    List (String × String) × HttpResponse :=
  let headersValue := acrHeaders.getD "Content-Type, Accept, Mcp-Session-Id"
  let hs := [("Access-Control-Allow-Methods", "POST, OPTIONS"),
             ("Access-Control-Allow-Headers", headersValue)]
  (match origins with
   | .wildcard => hs
   | .list _ => hs ++ [("Access-Control-Allow-Credentials", "true")], .noContent)

/-- `req.url.split('?')[0]`: the prefix of the url before the first `?`. -/
def stripQuery (url : String) : String :=
  ⟨url.data.takeWhile (fun c => c ≠ '?')⟩

/-- Outcome of `HttpTransport.canHandle`. -/
inductive RouteCheck where
  | preflight
  | notFound
  | methodNotAllowed
  | proceed

/-- `HttpTransport.canHandle`: OPTIONS gets a preflight regardless of path;
a path other than the configured MCP path is 404 (custom routes are never
consulted — the options' `customRoutes` are ignored by the transport);
a non-POST method on the MCP path is 405. -/
def canHandle (mcpPath : String) (method url : String) : RouteCheck :=
  if method = "OPTIONS" then .preflight
  else if stripQuery url ≠ mcpPath then .notFound
  else if method ≠ "POST" then .methodNotAllowed
  else .proceed

/-- Does `pat` occur at the start of `s`? (character-level helper for the JS
`String.prototype.replace` embedding). -/
def startsWithChars : List Char → List Char → Bool
  | [], _ => true
  | _ :: _, [] => false
  | p :: ps, c :: cs => p = c && startsWithChars ps cs

/-- `s.replace(pat, '')` for a string pattern: JS replaces only the first
occurrence, here with the empty replacement. -/
def replaceFirstAux (pat : List Char) : List Char → List Char
  | [] => []
  | c :: rest =>
    if startsWithChars pat (c :: rest) then (c :: rest).drop pat.length
    else c :: replaceFirstAux pat rest

/-- `$ref.replace('#/definitions/', '')` from `normalizeSchema`. -/
def refKeyOf (ref : String) : String :=
  ⟨replaceFirstAux "#/definitions/".data ref.data⟩

/-- JS `resolved && typeof resolved === 'object'`: `null` is falsy, arrays
and objects are truthy objects, primitives are not objects. -/
def isTruthyObject : Json → Bool
  | .obj _ => true
  | .arr _ => true
  | _ => false

/-- `definitions?.[refKey]`: indexing the `definitions` value (an object
lookup; any non-object yields `undefined`). -/
def resolveDefinition (defsVal : Json) (key : String) : Option Json :=
  match defsVal with
  | .obj defsFields => lookupField defsFields key
  | _ => none

/-- `normalizeSchema` (src/http/utilities.ts): when the document carries both
a `$ref` (a string, as `zodToJsonSchema` always emits) and `definitions`, the
referenced definition is looked up under the key obtained by stripping
`#/definitions/`; if it resolves to a (truthy) object it replaces the whole
document, otherwise — and in every other case — the input is returned
unchanged. -/
def normalizeSchema (schema : Json) : Json :=
  match schema with
  | .obj fields =>
    (match lookupField fields "$ref", lookupField fields "definitions" with
     | some (.str ref), some defsVal =>
       (match resolveDefinition defsVal (refKeyOf ref) with
        | some d => if isTruthyObject d then d else .obj fields
        | none => .obj fields)
     | _, _ => .obj fields)
  | j => j

/-- `zodSchemaToToolSchema` (src/http/utilities.ts): the external conversion
output (stored in the definition) passed through `normalizeSchema`. -/
def zodSchemaToToolSchema (t : ToolDef) : Json :=
  normalizeSchema t.rawJsonSchema

/-- Rendering of one `ToolResponseContent` into the JSON result. -/
def contentToJson : Content → Json
  | .text s => .obj [("type", .str "text"), ("text", .str s)]
  | .media kind data mime =>
    .obj [("type", .str kind), ("data", .str data), ("mimeType", .str mime)]

/-- The `content` array of a successful `tools/call` result. -/
def contentListToJson (cs : List Content) : Json :=
  .arr (cs.map contentToJson)

/-- One `tools/list` entry: `{name, description, inputSchema}`;
`JSON.stringify` drops the `description` property when it is `undefined`. -/
def toolDescriptor (t : ToolDef) : Json :=
  .obj ([("name", .str t.name)]
    ++ (match t.description with
        | some d => [("description", .str d)]
        | none => [])
    ++ [("inputSchema", zodSchemaToToolSchema t)])

/-- One `performance.now()` reading taken off the clock tape. -/
def takeNow : List Int → Int × List Int
  | [] => (0, [])
  | t :: ts => (t, ts)

/-- `error instanceof Error ? error.message : 'Unknown error occurred while
calling tool'` — every `Thrown` except a non-`Error` value is
message-bearing. -/
def responseMessageOf (e : Thrown) : String :=
  match e with
  | .parseErr m => m
  | .zodErr m => m
  | .jsError m => m
  | .nonError _ => "Unknown error occurred while calling tool"

/-- `error instanceof Error ? error : responseMessage`: the value handed to
`onToolCallError` by the `tools/call` catch block. -/
def errArgOf (e : Thrown) : ErrArg :=
  match e with
  | .nonError _ => .strVal (responseMessageOf e)
  | _ => .errVal e

/-- The catch block of `handleToolCall`: derive the response message, call
`recordToolError` (a fresh `performance.now()` reading, then the
`onToolCallError` hook — whose own exception would escape before the
response is written), then send `InternalError`. -/
def toolCallCatch (hooks : Hooks) (name : String) (rawInput : Json)
    (requestId : Option RpcId) (start : Int) (e : Thrown) (clock : List Int) :
    Except Thrown HttpResponse × List Event × List Int :=
  let responseMessage := responseMessageOf e
  let arg := errArgOf e
  let t := (takeNow clock).1
  let clock1 := (takeNow clock).2
  let elapsed := t - start
  match hooks.onToolCallError with
  | none => (.ok (.rpc requestId (.error (-32603) responseMessage)), [], clock1)
  | some f =>
    let ev := Event.toolCallError name rawInput arg elapsed
    match f name rawInput arg elapsed with
    | none => (.ok (.rpc requestId (.error (-32603) responseMessage)), [ev], clock1)
    | some e2 => (.error e2, [ev], clock1)

/-- `HttpTransport.handleToolCall` with `parseToolCallParams` and
`validateToolInput` inlined at their call sites, faithful to control flow:
params-shape failure answers `ParseError` with a `null` id; a missing tool
answers `InvalidParams`; schema-validation failure records a tool-call error
and answers `InvalidParams` embedding the diagnostics; otherwise
`onToolCallStarted` fires (outside the try block) and the handler runs under
the try/catch. -/
def handleToolCall (hooks : Hooks) (tools : List ToolDef)
    (request : JsonRpcRequest) (clock : List Int) :
    Except Thrown HttpResponse × List Event × List Int :=
  match parseCallToolParams request.params with
  | .error msg =>
    (.ok (.rpc none (.error (-32700) ("Unable to parse RPC request: " ++ msg))), [], clock)
  | .ok params =>
    let requestId := request.id
    match getTool tools params.name with
    | none =>
      (.ok (.rpc requestId (.error (-32602) ("Tool '" ++ params.name ++ "' not found"))),
       [], clock)
    | some tool =>
      let rawInput := params.arguments.getD (.obj [])
      let start := (takeNow clock).1
      let clock1 := (takeNow clock).2
      match tool.schema rawInput with
      | .error errorStr =>
        let t := (takeNow clock1).1
        let clock2 := (takeNow clock1).2
        let elapsed := t - start
        let resp : HttpResponse :=
          .rpc requestId (.error (-32602) ("Invalid tool arguments: " ++ errorStr))
        (match hooks.onToolCallError with
         | none => (.ok resp, [], clock2)
         | some f =>
           let ev := Event.toolCallError params.name rawInput (.strVal errorStr) elapsed
           match f params.name rawInput (.strVal errorStr) elapsed with
           | none => (.ok resp, [ev], clock2)
           | some e => (.error e, [ev], clock2))
      | .ok parsedInput =>
        let started : Except Thrown Unit × List Event :=
          match hooks.onToolCallStarted with
          | none => (.ok (), [])
          | some f =>
            let ev := Event.toolCallStarted params.name rawInput
            match f params.name rawInput with
            | none => (.ok (), [ev])
            | some e => (.error e, [ev])
        match started with
        | (.error e, evs) => (.error e, evs, clock1)
        | (.ok _, evs0) =>
          let evs1 := evs0 ++ [Event.handlerInvoked params.name rawInput]
          match tool.handler parsedInput with
          | .ok result =>
            let t := (takeNow clock1).1
            let clock2 := (takeNow clock1).2
            let elapsed := t - start
            let resp : HttpResponse :=
              .rpc requestId (.result (.obj [("content", contentListToJson result)]))
            (match hooks.onToolCallFinished with
             | none => (.ok resp, evs1, clock2)
             | some f =>
               let ev := Event.toolCallFinished params.name rawInput result elapsed
               match f params.name rawInput result elapsed with
               | none => (.ok resp, evs1 ++ [ev], clock2)
               | some e =>
                 let r := toolCallCatch hooks params.name rawInput requestId start e clock2
                 (r.1, (evs1 ++ [ev]) ++ r.2.1, r.2.2))
          | .error e =>
            let r := toolCallCatch hooks params.name rawInput requestId start e clock1
            (r.1, evs1 ++ r.2.1, r.2.2)

/-- `HttpTransport.handleInitialize`: params-shape failure answers
`ParseError` with a `null` id; success fires `onClientConnected` (inside the
outer try — its exception propagates) then echoes the protocol version and
server identity. -/
def handleInit (hooks : Hooks) (serverName serverVersion : String)
    (request : JsonRpcRequest) : Except Thrown HttpResponse × List Event :=
  match parseInitializeParams request.params with
  | .error msg =>
    (.ok (.rpc none (.error (-32700) ("Unable to parse RPC request: " ++ msg))), [])
  | .ok data =>
    let success : HttpResponse :=
      .rpc request.id (.result (.obj [
        ("protocolVersion", .str data.protocolVersion),
        ("serverInfo", .obj [("name", .str serverName), ("version", .str serverVersion)]),
        ("capabilities", .obj [("tools", .obj [])])]))
    match hooks.onClientConnected with
    | none => (.ok success, [])
    | some f =>
      let ev := Event.clientConnected data.clientInfo.name data.clientInfo.version
        data.protocolVersion
      match f data.clientInfo.name data.clientInfo.version data.protocolVersion with
      | none => (.ok success, [ev])
      | some e => (.error e, [ev])

/-- `HttpTransport.handleToolsList`: `onToolsListRequested` fires first (its
exception propagates to the outer catch), then the full registry is rendered
in insertion order. -/
def handleToolsList (hooks : Hooks) (tools : List ToolDef)
    (request : JsonRpcRequest) : Except Thrown HttpResponse × List Event :=
  let success : HttpResponse :=
    .rpc request.id (.result (.obj [("tools", .arr (tools.map toolDescriptor))]))
  match hooks.onToolsListRequested with
  | none => (.ok success, [])
  | some f =>
    match f () with
    | none => (.ok success, [Event.toolsListRequested])
    | some e => (.error e, [Event.toolsListRequested])

/-- The catch block of `handleHttpRequest`: `SyntaxError` answers
`ParseError`, `ZodError` answers `InvalidParams`, anything else
`InternalError`, always with the current `requestId`. -/
def applyCatch (requestId : Option RpcId) (r : Except Thrown HttpResponse) : HttpResponse :=
  match r with
  | .ok resp => resp
  | .error (.parseErr _) => .rpc requestId (.error (-32700) "Invalid JSON")
  | .error (.zodErr _) => .rpc requestId (.error (-32602) "Invalid request format")
  | .error (.jsError _) => .rpc requestId (.error (-32603) "Internal server error")
  | .error (.nonError _) => .rpc requestId (.error (-32603) "Internal server error")

/-- The raw HTTP request as consumed by the dispatcher. `body` is the
`JSON.parse` outcome of the request body: `none` models a syntax failure
(the thrown `SyntaxError`), `some j` the parsed document. -/
structure HttpRequest where
  method : String
  url : String
  origin : Option String
  accessControlRequestHeaders : Option String := none
  body : Option Json := none

/-- Everything one dispatch writes: response headers accumulated via
`res.setHeader`, the single response, and the event trace. -/
structure DispatchResult where
  headers : List (String × String)
  response : HttpResponse
  events : List Event

/-- `HttpTransport.handleHttpRequest`: CORS, then `canHandle`, then the body
is read and validated (note: `requestId` is only assigned *after* the
envelope validated, so both body-level failures answer with a `null` id),
then the method switch. -/
def handleHttpRequest (opts : TransportOptions) (serverName serverVersion : String)
    (tools : List ToolDef) (req : HttpRequest) (clock : List Int) : DispatchResult :=
  let corsHeaders := (ensureCors opts.allowedOrigins req.origin).1
  match (ensureCors opts.allowedOrigins req.origin).2 with
  | some resp => ⟨corsHeaders, resp, []⟩
  | none =>
    match canHandle opts.path req.method req.url with
    | .preflight =>
      let pre := sendPreflightResponse opts.allowedOrigins req.accessControlRequestHeaders
      ⟨corsHeaders ++ pre.1, pre.2, []⟩
    | .notFound => ⟨corsHeaders, .plain 404 "Not found", []⟩
    | .methodNotAllowed =>
      ⟨corsHeaders ++ [("Allow", "POST, OPTIONS")], .plain 405 "Method not allowed", []⟩
    | .proceed =>
      match req.body with
      | none => ⟨corsHeaders, .rpc none (.error (-32700) "Invalid JSON"), []⟩
      | some bodyJson =>
        match parseJsonRpcRequest bodyJson with
        | none => ⟨corsHeaders, .rpc none (.error (-32602) "Invalid request format"), []⟩
        | some parsed =>
          let requestId := parsed.id
          if parsed.method = "initialize" then
            let r := handleInit opts.hooks serverName serverVersion parsed
            ⟨corsHeaders, applyCatch requestId r.1, r.2⟩
          else if parsed.method = "tools/list" then
            let r := handleToolsList opts.hooks tools parsed
            ⟨corsHeaders, applyCatch requestId r.1, r.2⟩
          else if parsed.method = "tools/call" then
            let r := handleToolCall opts.hooks tools parsed clock
            ⟨corsHeaders, applyCatch requestId r.1, r.2.1⟩
          else if parsed.method = "ping" then
            ⟨corsHeaders, .rpc requestId (.result (.obj [("status", .str "ok")])), []⟩
          else
            ⟨corsHeaders, .rpc requestId (.error (-32601) "Method not found"), []⟩

/-! ### Concrete fixtures used by closed counterexample and witness theorems -/

/-- A transport with defaults and no hooks. -/
def plainOpts : TransportOptions :=
  { path := "/mcp", allowedOrigins := .wildcard, hooks := noHooks }

/-- A `POST /mcp` request carrying the given parsed JSON body. -/
def postMcp (body : Option Json) : HttpRequest :=
  { method := "POST", url := "/mcp", origin := none, body := body }

/-- An `echo`-style tool whose schema accepts anything and whose handler
returns a single text item. -/
def echoTool : ToolDef :=
  { name := "echo", description := some "Echo tool",
    schema := fun j => .ok j,
    handler := fun _ => .ok [.text "hi"],
    rawJsonSchema := .obj [("type", .str "object")] }

/-- A tool whose schema always rejects with a fixed diagnostics string. -/
def rejectTool : ToolDef :=
  { name := "strict", description := none,
    schema := fun _ => .error "fieldErrors: text: Required",
    handler := fun _ => .ok [],
    rawJsonSchema := .obj [("type", .str "object")] }

/-- A tool whose handler always throws `new Error('kaboom')`. -/
def throwTool : ToolDef :=
  { name := "boom", description := none,
    schema := fun j => .ok j,
    handler := fun _ => .error (.jsError "kaboom"),
    rawJsonSchema := .obj [("type", .str "object")] }

/-- Hooks whose `onToolCallFinished` throws and whose `onToolCallError`
returns normally. -/
def finishThrowHooks : Hooks :=
  { onToolCallFinished := some (fun _ _ _ _ => some (.jsError "hook boom")),
    onToolCallError := some (fun _ _ _ _ => none) }

/-- Hooks whose `onToolCallError` is present and returns normally. -/
def errHookOnly : Hooks :=
  { onToolCallError := some (fun _ _ _ _ => none) }

/-- A well-formed `tools/call` body for the named tool with empty arguments. -/
def callBody (toolName : String) : Json :=
  .obj [("jsonrpc", .str "2.0"), ("id", .num 3), ("method", .str "tools/call"),
    ("params", .obj [("name", .str toolName), ("arguments", .obj [])])]

/-- `true` iff the zod `safeParse` succeeded. -/
def exceptOk {ε α : Type} : Except ε α → Bool
  | .ok _ => true
  | .error _ => false

/-- The response id the dispatcher actually produces for a recognized method:
the request id (or `null` when absent), except that an `initialize` or
`tools/call` whose params fail shape validation answers with a `null` id. -/
def responseIdFor (r : JsonRpcRequest) : Option RpcId :=
  if r.method = "initialize" ∧ exceptOk (parseInitializeParams r.params) = false then none
  else if r.method = "tools/call" ∧ exceptOk (parseCallToolParams r.params) = false then none
  else r.id

end ZeroMcp

namespace ZeroMcp

/-! ### Claim theorems -/

/-- C1 (counterexample): a `POST /mcp` whose body is valid JSON but fails
JSON-RPC envelope shape validation (here: the `method` field is missing,
while the id `1` would be recoverable) is answered with code `-32602`, not
`-32700` as claimed, and with a `null` id. -/
theorem c1_counterexample :
    (handleHttpRequest plainOpts "srv" "1.0" []
        (postMcp (some (.obj [("jsonrpc", .str "2.0"), ("id", .num 1)]))) []).response
      = .rpc none (.error (-32602) "Invalid request format") ∧
    ((-32602 : Int) ≠ -32700) :=
  ⟨by rfl, by decide⟩

/-- C1 (amended): under the CORS and routing gates, a body that fails
envelope shape validation is answered with `InvalidParams` (-32602,
"Invalid request format") and a `null` id — the id is never recovered —
while a JSON syntax failure is answered with `ParseError` (-32700,
"Invalid JSON"), also with a `null` id. -/
theorem c1_amended (opts : TransportOptions) (serverName serverVersion : String)
    (tools : List ToolDef) (req : HttpRequest) (clock : List Int)
    (hcors : (ensureCors opts.allowedOrigins req.origin).2 = none)
    (hroute : canHandle opts.path req.method req.url = .proceed) :
    (∀ j, req.body = some j → parseJsonRpcRequest j = none →
      (handleHttpRequest opts serverName serverVersion tools req clock).response
        = .rpc none (.error (-32602) "Invalid request format")) ∧
    (req.body = none →
      (handleHttpRequest opts serverName serverVersion tools req clock).response
        = .rpc none (.error (-32700) "Invalid JSON")) := by
  constructor
  · intro j hb hp
    simp [handleHttpRequest, hcors, hroute, hb, hp]
  · intro hb
    simp [handleHttpRequest, hcors, hroute, hb]

/-- Witness for C1 (amended) at a concrete envelope-shape failure and a
concrete syntax failure. -/
theorem c1_amended_witness :
    (handleHttpRequest plainOpts "srv" "1.0" []
        (postMcp (some (.obj [("jsonrpc", .str "1.0"), ("method", .str "ping")]))) []).response
      = .rpc none (.error (-32602) "Invalid request format") ∧
    (handleHttpRequest plainOpts "srv" "1.0" [] (postMcp none) []).response
      = .rpc none (.error (-32700) "Invalid JSON") :=
  ⟨(c1_amended plainOpts "srv" "1.0" [] (postMcp (some (.obj [("jsonrpc", .str "1.0"),
      ("method", .str "ping")]))) [] (by rfl) (by rfl)).1 _ rfl (by rfl),
   (c1_amended plainOpts "srv" "1.0" [] (postMcp none) [] (by rfl) (by rfl)).2 rfl⟩

/-- C2 (code evaluated at the failing input): with a custom route registered
for `(GET, /health)` in the transport options, a `GET /health` request is
still answered HTTP 404 — `handleHttpRequest` never consults
`customRoutes`, so no delegation happens. -/
theorem c2_custom_route_not_dispatched :
    ("GET", "/health") ∈
      ({ path := "/mcp", allowedOrigins := .wildcard, hooks := noHooks,
         customRoutes := [("GET", "/health")] } : TransportOptions).customRoutes ∧
    (handleHttpRequest
        { path := "/mcp", allowedOrigins := .wildcard, hooks := noHooks,
          customRoutes := [("GET", "/health")] } "srv" "1.0" []
        { method := "GET", url := "/health", origin := none } []).response
      = .plain 404 "Not found" :=
  ⟨by simp, by rfl⟩

/-- C4 (code evaluated at the failing input): the handler of `echo` succeeds
with `[text "hi"]`, but `onToolCallFinished` throws; the exception is caught
by the try/catch around the handler *before* the success envelope is
written, so the response becomes `InternalError` (-32603) carrying the
hook's message, and `onToolCallError` fires with the hook's error — the
hook failure is not swallowed. -/
theorem c4_hook_failure_changes_response :
    (handleHttpRequest
        { path := "/mcp", allowedOrigins := .wildcard, hooks := finishThrowHooks }
        "srv" "1.0" [echoTool] (postMcp (some (callBody "echo"))) [10, 25, 31]).response
      = .rpc (some (.num 3)) (.error (-32603) "hook boom") ∧
    (handleHttpRequest
        { path := "/mcp", allowedOrigins := .wildcard, hooks := finishThrowHooks }
        "srv" "1.0" [echoTool] (postMcp (some (callBody "echo"))) [10, 25, 31]).events
      = [.handlerInvoked "echo" (.obj []),
         .toolCallFinished "echo" (.obj []) [.text "hi"] 15,
         .toolCallError "echo" (.obj []) (.errVal (.jsError "hook boom")) 21] :=
  ⟨by rfl, by rfl⟩

/-- C8: under an explicit allow-list CORS policy, a request without an
`Origin` header passes through with no CORS headers; an allow-listed origin
is echoed with credentials allowed and the pipeline proceeds; any other
origin is rejected with HTTP 403, no headers (in particular no
`Access-Control-Allow-Origin`), no events, and the pipeline stops. -/
theorem c8_cors_allowlist :
    (∀ l : List String, ensureCors (.list l) none = ([], none)) ∧
    (∀ (l : List String) (o : String), o ∈ l →
      ensureCors (.list l) (some o) =
        ([("Access-Control-Allow-Origin", o), ("Access-Control-Allow-Credentials", "true"),
          ("Access-Control-Expose-Headers", "Mcp-Session-Id"), ("Vary", "Origin")], none)) ∧
    (∀ (l : List String) (o : String) (opts : TransportOptions)
        (serverName serverVersion : String) (tools : List ToolDef) (req : HttpRequest)
        (clock : List Int),
      opts.allowedOrigins = .list l → req.origin = some o → o ∉ l →
      handleHttpRequest opts serverName serverVersion tools req clock =
        ⟨[], .plain 403 "Forbidden origin", []⟩) := by
  refine ⟨fun l => rfl, fun l o h => by simp [ensureCors, h],
    fun l o opts sn sv tools req clock h1 h2 h3 => ?_⟩
  simp [handleHttpRequest, ensureCors, h1, h2, h3]

/-- Witness for C8: the spec's own example — `https://evil.example` against
the allow-list `["https://good.example"]` is rejected 403 with no headers,
and the allow-listed origin itself is echoed. -/
theorem c8_cors_allowlist_witness :
    handleHttpRequest
        { path := "/mcp", allowedOrigins := .list ["https://good.example"], hooks := noHooks }
        "srv" "1.0" []
        { method := "POST", url := "/mcp", origin := some "https://evil.example" } [] =
      ⟨[], .plain 403 "Forbidden origin", []⟩ ∧
    ensureCors (.list ["https://good.example"]) (some "https://good.example") =
      ([("Access-Control-Allow-Origin", "https://good.example"),
        ("Access-Control-Allow-Credentials", "true"),
        ("Access-Control-Expose-Headers", "Mcp-Session-Id"), ("Vary", "Origin")], none) ∧
    ensureCors (.list ["https://good.example"]) none = ([], none) :=
  ⟨c8_cors_allowlist.2.2 ["https://good.example"] "https://evil.example" _ "srv" "1.0" [] _ []
      rfl rfl (by decide),
   c8_cors_allowlist.2.1 ["https://good.example"] "https://good.example" (by decide),
   c8_cors_allowlist.1 ["https://good.example"]⟩

end ZeroMcp

namespace ZeroMcp

/-- Helper: `getTool` skips a block of definitions none of which carries the
looked-up name. -/
theorem getTool_append_of_fresh (tools rest : List ToolDef) (n : String)
    (h : ∀ u ∈ tools, u.name ≠ n) : getTool (tools ++ rest) n = getTool rest n := by
  induction tools with
  | nil => rfl
  | cons a as ih =>
    have ha : (a.name == n) = false := by
      simpa using h a (by simp)
    simpa [getTool, List.find?_cons, ha] using ih (fun u hu => h u (by simp [hu]))

/-- C9: registering a tool on a registry not containing its name succeeds,
appends it, and (when the hook is installed) notifies `onToolRegistered`
once; a second registration under the same name fails with the duplicate
error, fires no hook, and the registry still exposes exactly one definition
under that name — the first. -/
theorem c9_duplicate_registration
    (hooks : Hooks) (tools : List ToolDef) (t1 t2 : ToolDef)
    (hfresh : ∀ u ∈ tools, u.name ≠ t1.name) (hdup : t2.name = t1.name) :
    (registerTool hooks tools t1).1 = .ok (tools ++ [t1]) ∧
    (∀ f, hooks.onToolRegistered = some f →
      (registerTool hooks tools t1).2
        = [.toolRegistered t1.name (t1.description.getD "")]) ∧
    (registerTool hooks (tools ++ [t1]) t2).1
      = .error ("Tool '" ++ t2.name ++ "' is already registered") ∧
    (registerTool hooks (tools ++ [t1]) t2).2 = [] ∧
    getTool (tools ++ [t1]) t2.name = some t1 ∧
    ((tools ++ [t1]).filter (fun u => u.name == t2.name)).length = 1 := by
  have hany : tools.any (fun u => u.name == t1.name) = false := by
    simp only [List.any_eq_false]
    intro u hu
    simpa using hfresh u hu
  have hany2 : (tools ++ [t1]).any (fun u => u.name == t2.name) = true := by
    simp [List.any_append, hdup]
  refine ⟨by simp [registerTool, hany], ?_, by simp [registerTool, hany2, hdup],
    by simp [registerTool, hany2], ?_, ?_⟩
  · intro f hf
    simp [registerTool, hany, hf]
  · rw [hdup, getTool_append_of_fresh tools [t1] t1.name hfresh]
    simp [getTool]
  · rw [List.filter_append]
    have h1 : tools.filter (fun u => u.name == t2.name) = [] := by
      rw [List.filter_eq_nil_iff]
      intro u hu
      simpa [hdup] using hfresh u hu
    have h2 : [t1].filter (fun u => u.name == t2.name) = [t1] := by
      simp [List.filter, hdup]
    rw [h1, h2]
    rfl

/-- Witness for C9: two tools both named `echo`; the second registration
fails, the registry keeps exactly the first. -/
theorem c9_duplicate_registration_witness :
    (registerTool errHookOnly [] echoTool).1 = .ok [echoTool] ∧
    (registerTool errHookOnly [echoTool] echoTool).1
      = .error "Tool 'echo' is already registered" ∧
    (registerTool errHookOnly [echoTool] echoTool).2 = [] ∧
    getTool [echoTool] "echo" = some echoTool := by
  obtain ⟨h1, _, h3, h4, h5, _⟩ :=
    c9_duplicate_registration errHookOnly [] echoTool echoTool (by simp) rfl
  exact ⟨by simpa using h1, by simpa [echoTool] using h3, by simpa using h4,
    by simpa [echoTool] using h5⟩

/-- Helper: `startsWithChars` accepts its own pattern as a prefix. -/
theorem startsWithChars_append (pat r : List Char) :
    startsWithChars pat (pat ++ r) = true := by
  induction pat with
  | nil => rfl
  | cons c cs ih => simp [startsWithChars, ih]

/-- Helper: replacing the first occurrence of a leading pattern removes it. -/
theorem replaceFirstAux_append (pat r : List Char) (h : pat ≠ []) :
    replaceFirstAux pat (pat ++ r) = r := by
  match pat, h with
  | c :: cs, _ =>
    have hs : startsWithChars (c :: cs) (c :: (cs ++ r)) = true := by
      simpa [startsWithChars] using startsWithChars_append cs r
    show replaceFirstAux (c :: cs) (c :: (cs ++ r)) = r
    simp [replaceFirstAux, hs, List.drop_left]

/-- Helper: stripping `#/definitions/` from a `$ref` built over it recovers
the definition key. -/
theorem refKeyOf_concat (s : String) : refKeyOf ("#/definitions/" ++ s) = s := by
  unfold refKeyOf
  have hd : ("#/definitions/" ++ s).data = "#/definitions/".data ++ s.data := rfl
  rw [hd, replaceFirstAux_append _ _ (by decide)]

/-- C10: if the converted document is a `$ref`-plus-`definitions` wrapper
whose `$ref` points at the single named definition (an object), the adapter
returns that definition inlined; in every other shape (no `$ref`, no
`definitions`, unresolvable key, or a non-object resolution) the document is
returned unchanged. -/
theorem c10_schema_inlining :
    (∀ (fields : List (String × Json)) (refName : String) (d : Json),
      lookupField fields "$ref" = some (.str ("#/definitions/" ++ refName)) →
      lookupField fields "definitions" = some (.obj [(refName, d)]) →
      isTruthyObject d = true →
      normalizeSchema (.obj fields) = d) ∧
    (∀ fields, lookupField fields "$ref" = none →
      normalizeSchema (.obj fields) = .obj fields) ∧
    (∀ fields, lookupField fields "definitions" = none →
      normalizeSchema (.obj fields) = .obj fields) ∧
    (∀ (fields : List (String × Json)) (ref : String) (dv : Json),
      lookupField fields "$ref" = some (.str ref) →
      lookupField fields "definitions" = some dv →
      resolveDefinition dv (refKeyOf ref) = none →
      normalizeSchema (.obj fields) = .obj fields) ∧
    (∀ (fields : List (String × Json)) (ref : String) (dv d : Json),
      lookupField fields "$ref" = some (.str ref) →
      lookupField fields "definitions" = some dv →
      resolveDefinition dv (refKeyOf ref) = some d →
      isTruthyObject d = false →
      normalizeSchema (.obj fields) = .obj fields) := by
  refine ⟨fun fields refName d h1 h2 h3 => ?_, fun fields h => ?_, fun fields h => ?_,
    fun fields ref dv h1 h2 h3 => ?_, fun fields ref dv d h1 h2 h3 h4 => ?_⟩
  · simp [normalizeSchema, h1, h2, resolveDefinition, refKeyOf_concat, lookupField, h3]
  · simp [normalizeSchema, h]
  · cases h1 : lookupField fields "$ref" with
    | none => simp [normalizeSchema, h1]
    | some v => cases v <;> simp [normalizeSchema, h1, h]
  · simp [normalizeSchema, h1, h2, h3]
  · simp [normalizeSchema, h1, h2, h3, h4]

/-- Witness for C10: a concrete named wrapper is inlined; a document with no
`$ref` is returned unchanged. -/
theorem c10_schema_inlining_witness :
    normalizeSchema (.obj [("$ref", .str "#/definitions/Weather"),
        ("definitions", .obj [("Weather", .obj [("type", .str "object")])])])
      = .obj [("type", .str "object")] ∧
    normalizeSchema (.obj [("type", .str "string")]) = .obj [("type", .str "string")] :=
  ⟨c10_schema_inlining.1 _ "Weather" (.obj [("type", .str "object")]) (by rfl) (by rfl) (by rfl),
   c10_schema_inlining.2.1 [("type", .str "string")] (by rfl)⟩

/-- C3 (counterexample): an `initialize` request carrying id `7` but invalid
params (params absent) is answered with a `null` id, not the request id. -/
theorem c3_counterexample :
    parseJsonRpcRequest
        (.obj [("jsonrpc", .str "2.0"), ("id", .num 7), ("method", .str "initialize")])
      = some ⟨some (.num 7), "initialize", none⟩ ∧
    (handleHttpRequest plainOpts "srv" "1.0" []
        (postMcp (some (.obj [("jsonrpc", .str "2.0"), ("id", .num 7),
          ("method", .str "initialize")]))) []).response
      = .rpc none (.error (-32700) "Unable to parse RPC request: Required") ∧
    some (RpcId.num 7) ≠ (none : Option RpcId) :=
  ⟨by rfl, by rfl, by simp⟩

end ZeroMcp

namespace ZeroMcp

/-- C6: a `tools/call` naming a tool absent from the registry answers
`InvalidParams` (-32602) with a message naming the missing tool, and fires
no event at all — in particular neither `onToolCallStarted` nor the handler
runs. -/
theorem c6_unknown_tool (opts : TransportOptions) (serverName serverVersion : String)
    (tools : List ToolDef) (req : HttpRequest) (j : Json) (r : JsonRpcRequest)
    (p : CallToolParams) (clock : List Int)
    (hcors : (ensureCors opts.allowedOrigins req.origin).2 = none)
    (hroute : canHandle opts.path req.method req.url = .proceed)
    (hb : req.body = some j)
    (hj : parseJsonRpcRequest j = some r)
    (hm : r.method = "tools/call")
    (hp : parseCallToolParams r.params = .ok p)
    (htool : getTool tools p.name = none) :
    (handleHttpRequest opts serverName serverVersion tools req clock).response
      = .rpc r.id (.error (-32602) ("Tool '" ++ p.name ++ "' not found")) ∧
    (handleHttpRequest opts serverName serverVersion tools req clock).events = [] := by
  constructor <;>
    simp [handleHttpRequest, hcors, hroute, hb, hj, hm, handleToolCall, hp, htool, applyCatch]

/-- Witness for C6: calling the unregistered tool `ghost` on an empty
registry. -/
theorem c6_unknown_tool_witness :
    (handleHttpRequest plainOpts "srv" "1.0" [] (postMcp (some (callBody "ghost"))) []).response
      = .rpc (some (.num 3)) (.error (-32602) "Tool 'ghost' not found") ∧
    (handleHttpRequest plainOpts "srv" "1.0" [] (postMcp (some (callBody "ghost"))) []).events
      = [] :=
  c6_unknown_tool plainOpts "srv" "1.0" [] (postMcp (some (callBody "ghost")))
    (callBody "ghost") ⟨some (.num 3), "tools/call",
      some (.obj [("name", .str "ghost"), ("arguments", .obj [])])⟩
    ⟨"ghost", some (.obj [])⟩ [] (by rfl) (by rfl) rfl (by rfl) rfl (by rfl) (by rfl)

/-- C5: a `tools/call` whose arguments fail the named tool's schema answers
`InvalidParams` (-32602) with the serialized diagnostics embedded in the
message, and the event trace is exactly one `onToolCallError` invocation
carrying those diagnostics and the elapsed time `t1 - t0` computed from the
start timestamp — no `onToolCallStarted`, no handler invocation. -/
theorem c5_validation_failure (opts : TransportOptions) (serverName serverVersion : String)
    (tools : List ToolDef) (req : HttpRequest) (j : Json) (r : JsonRpcRequest)
    (p : CallToolParams) (tool : ToolDef) (d : String)
    (f : String → Json → ErrArg → Int → Option Thrown)
    (t0 t1 : Int) (rest : List Int)
    (hcors : (ensureCors opts.allowedOrigins req.origin).2 = none)
    (hroute : canHandle opts.path req.method req.url = .proceed)
    (hb : req.body = some j)
    (hj : parseJsonRpcRequest j = some r)
    (hm : r.method = "tools/call")
    (hp : parseCallToolParams r.params = .ok p)
    (htool : getTool tools p.name = some tool)
    (hval : tool.schema (p.arguments.getD (.obj [])) = .error d)
    (hhook : opts.hooks.onToolCallError = some f)
    (hnothrow : f p.name (p.arguments.getD (.obj [])) (.strVal d) (t1 - t0) = none) :
    (handleHttpRequest opts serverName serverVersion tools req (t0 :: t1 :: rest)).response
      = .rpc r.id (.error (-32602) ("Invalid tool arguments: " ++ d)) ∧
    (handleHttpRequest opts serverName serverVersion tools req (t0 :: t1 :: rest)).events
      = [.toolCallError p.name (p.arguments.getD (.obj [])) (.strVal d) (t1 - t0)] := by
  constructor <;>
    simp [handleHttpRequest, hcors, hroute, hb, hj, hm, handleToolCall, hp, htool, hval,
      takeNow, hhook, hnothrow, applyCatch]

/-- Witness for C5: the `strict` tool rejects its (empty) arguments with a
fixed diagnostics string; clock readings 2 then 9 give elapsed 7. -/
theorem c5_validation_failure_witness :
    (handleHttpRequest
        { path := "/mcp", allowedOrigins := .wildcard, hooks := errHookOnly }
        "srv" "1.0" [rejectTool] (postMcp (some (callBody "strict"))) [2, 9]).response
      = .rpc (some (.num 3)) (.error (-32602)
          ("Invalid tool arguments: " ++ "fieldErrors: text: Required")) ∧
    (handleHttpRequest
        { path := "/mcp", allowedOrigins := .wildcard, hooks := errHookOnly }
        "srv" "1.0" [rejectTool] (postMcp (some (callBody "strict"))) [2, 9]).events
      = [.toolCallError "strict" (.obj [])
          (.strVal "fieldErrors: text: Required") 7] :=
  c5_validation_failure
    { path := "/mcp", allowedOrigins := .wildcard, hooks := errHookOnly }
    "srv" "1.0" [rejectTool] (postMcp (some (callBody "strict")))
    (callBody "strict")
    ⟨some (.num 3), "tools/call", some (.obj [("name", .str "strict"), ("arguments", .obj [])])⟩
    ⟨"strict", some (.obj [])⟩ rejectTool "fieldErrors: text: Required"
    (fun _ _ _ _ => none) 2 9 []
    (by rfl) (by rfl) rfl (by rfl) rfl (by rfl) (by rfl) (by rfl) (by rfl) (by rfl)

end ZeroMcp

namespace ZeroMcp

/-- C7: when a tool handler throws, the dispatcher answers `InternalError`
(-32603) with the thrown error's message (or the generic fallback when the
thrown value is not an `Error`), and `onToolCallError` fires with the error
itself when it is an `Error` (else the rendered response message) and an
elapsed time `t1 - t0 ≥ 0`.  Hypotheses require only that the installed
hooks themselves return normally. -/
theorem c7_handler_error (opts : TransportOptions) (serverName serverVersion : String)
    (tools : List ToolDef) (req : HttpRequest) (j : Json) (r : JsonRpcRequest)
    (p : CallToolParams) (tool : ToolDef) (coerced : Json) (e : Thrown)
    (f : String → Json → ErrArg → Int → Option Thrown)
    (t0 t1 : Int) (rest : List Int)
    (hcors : (ensureCors opts.allowedOrigins req.origin).2 = none)
    (hroute : canHandle opts.path req.method req.url = .proceed)
    (hb : req.body = some j)
    (hj : parseJsonRpcRequest j = some r)
    (hm : r.method = "tools/call")
    (hp : parseCallToolParams r.params = .ok p)
    (htool : getTool tools p.name = some tool)
    (hval : tool.schema (p.arguments.getD (.obj [])) = .ok coerced)
    (hhandler : tool.handler coerced = .error e)
    (hstart : ∀ g, opts.hooks.onToolCallStarted = some g →
      g p.name (p.arguments.getD (.obj [])) = none)
    (hhook : opts.hooks.onToolCallError = some f)
    (hnothrow : f p.name (p.arguments.getD (.obj [])) (errArgOf e) (t1 - t0) = none)
    (hmono : t0 ≤ t1) :
    (handleHttpRequest opts serverName serverVersion tools req (t0 :: t1 :: rest)).response
      = .rpc r.id (.error (-32603) (responseMessageOf e)) ∧
    (.toolCallError p.name (p.arguments.getD (.obj [])) (errArgOf e) (t1 - t0)) ∈
      (handleHttpRequest opts serverName serverVersion tools req (t0 :: t1 :: rest)).events ∧
    0 ≤ t1 - t0 := by
  refine ⟨?_, ?_, by omega⟩ <;>
  · cases hs : opts.hooks.onToolCallStarted with
    | none =>
      simp [handleHttpRequest, hcors, hroute, hb, hj, hm, handleToolCall, hp, htool, hval,
        takeNow, hs, hhandler, toolCallCatch, hhook, hnothrow, applyCatch]
    | some g =>
      have hg := hstart g hs
      simp [handleHttpRequest, hcors, hroute, hb, hj, hm, handleToolCall, hp, htool, hval,
        takeNow, hs, hg, hhandler, toolCallCatch, hhook, hnothrow, applyCatch]

/-- Witness for C7: the `boom` tool throws `Error('kaboom')`; clock readings
2 then 5 give elapsed 3 ≥ 0. -/
theorem c7_handler_error_witness :
    (handleHttpRequest
        { path := "/mcp", allowedOrigins := .wildcard, hooks := errHookOnly }
        "srv" "1.0" [throwTool] (postMcp (some (callBody "boom"))) [2, 5]).response
      = .rpc (some (.num 3)) (.error (-32603) (responseMessageOf (.jsError "kaboom"))) ∧
    (.toolCallError "boom" (.obj []) (errArgOf (.jsError "kaboom")) 3) ∈
      (handleHttpRequest
        { path := "/mcp", allowedOrigins := .wildcard, hooks := errHookOnly }
        "srv" "1.0" [throwTool] (postMcp (some (callBody "boom"))) [2, 5]).events ∧
    (0 : Int) ≤ 3 :=
  c7_handler_error
    { path := "/mcp", allowedOrigins := .wildcard, hooks := errHookOnly }
    "srv" "1.0" [throwTool] (postMcp (some (callBody "boom")))
    (callBody "boom")
    ⟨some (.num 3), "tools/call", some (.obj [("name", .str "boom"), ("arguments", .obj [])])⟩
    ⟨"boom", some (.obj [])⟩ throwTool (.obj []) (.jsError "kaboom")
    (fun _ _ _ _ => none) 2 5 []
    (by rfl) (by rfl) rfl (by rfl) rfl (by rfl) (by rfl) (by rfl) (by rfl)
    (fun g h => Option.noConfusion h) (by rfl) (by rfl) (by decide)

end ZeroMcp

namespace ZeroMcp

/-- The id carried by a JSON-RPC response (none for plain/preflight responses). -/
def rpcIdOf : HttpResponse → Option (Option RpcId)
  | .rpc i _ => some i
  | _ => none

/-- Helper: the outer catch block always answers with the current request id. -/
theorem rpcIdOf_applyCatch_error (i : Option RpcId) (e : Thrown) :
    rpcIdOf (applyCatch i (.error e)) = some i := by
  cases e <;> rfl

/-- Helper: `initialize` answers with the request id exactly when its params
validate; a params failure answers with a `null` id. -/
theorem handleInit_id (hooks : Hooks) (sn sv : String) (r : JsonRpcRequest) :
    rpcIdOf (applyCatch r.id (handleInit hooks sn sv r).1)
      = some (if exceptOk (parseInitializeParams r.params) = true then r.id else none) := by
  cases hp : parseInitializeParams r.params with
  | error m => simp [handleInit, hp, exceptOk, applyCatch, rpcIdOf]
  | ok d =>
    cases hc : hooks.onClientConnected with
    | none => simp [handleInit, hp, exceptOk, applyCatch, rpcIdOf, hc]
    | some f =>
      cases hf : f d.clientInfo.name d.clientInfo.version d.protocolVersion with
      | none => simp [handleInit, hp, exceptOk, applyCatch, rpcIdOf, hc, hf]
      | some e => cases e <;> simp [handleInit, hp, exceptOk, applyCatch, rpcIdOf, hc, hf]

/-- Helper: `tools/list` always answers with the request id. -/
theorem handleToolsList_id (hooks : Hooks) (tools : List ToolDef) (r : JsonRpcRequest) :
    rpcIdOf (applyCatch r.id (handleToolsList hooks tools r).1) = some r.id := by
  cases hc : hooks.onToolsListRequested with
  | none => simp [handleToolsList, applyCatch, rpcIdOf, hc]
  | some f =>
    cases hf : f () with
    | none => simp [handleToolsList, applyCatch, rpcIdOf, hc, hf]
    | some e => cases e <;> simp [handleToolsList, applyCatch, rpcIdOf, hc, hf]

/-- Helper: `tools/call` answers with the request id exactly when its params
validate; a params failure answers with a `null` id. -/
theorem handleToolCall_id (hooks : Hooks) (tools : List ToolDef) (r : JsonRpcRequest)
    (clock : List Int) :
    rpcIdOf (applyCatch r.id (handleToolCall hooks tools r clock).1)
      = some (if exceptOk (parseCallToolParams r.params) = true then r.id else none) := by
  cases hp : parseCallToolParams r.params with
  | error m => simp [handleToolCall, hp, exceptOk, applyCatch, rpcIdOf]
  | ok p =>
    simp only [handleToolCall, toolCallCatch, hp, exceptOk, reduceIte]
    repeat' split
    all_goals
      first
      | (simp [applyCatch, rpcIdOf]; done)
      | exact rpcIdOf_applyCatch_error r.id _

/-- C3 (amended): for every well-formed JSON-RPC request with a recognized
method, the response id equals the request id (or `null` when absent) —
except that an `initialize` or `tools/call` whose params fail shape
validation answers with a `null` id even when the request carried one
(`responseIdFor`). -/
theorem c3_amended (opts : TransportOptions) (serverName serverVersion : String)
    (tools : List ToolDef) (req : HttpRequest) (clock : List Int)
    (j : Json) (r : JsonRpcRequest)
    (hcors : (ensureCors opts.allowedOrigins req.origin).2 = none)
    (hroute : canHandle opts.path req.method req.url = .proceed)
    (hb : req.body = some j)
    (hj : parseJsonRpcRequest j = some r)
    (hm : r.method = "initialize" ∨ r.method = "tools/list" ∨
      r.method = "tools/call" ∨ r.method = "ping") :
    rpcIdOf (handleHttpRequest opts serverName serverVersion tools req clock).response
      = some (responseIdFor r) := by
  rcases hm with hm | hm | hm | hm
  · have h := handleInit_id opts.hooks serverName serverVersion r
    simp only [handleHttpRequest, hcors, hroute, hb, hj, hm] at h ⊢
    simp only [responseIdFor, hm]
    cases hE : exceptOk (parseInitializeParams r.params) <;> simp_all
  · simp only [handleHttpRequest, hcors, hroute, hb, hj, hm, responseIdFor]
    simpa using handleToolsList_id opts.hooks tools r
  · have h := handleToolCall_id opts.hooks tools r clock
    simp only [handleHttpRequest, hcors, hroute, hb, hj, hm] at h ⊢
    simp only [responseIdFor, hm]
    cases hE : exceptOk (parseCallToolParams r.params) <;> simp_all
  · simp [handleHttpRequest, hcors, hroute, hb, hj, hm, responseIdFor, rpcIdOf]

/-- Witness for C3 (amended): a `ping` with id 1 is answered with id 1, and
an `initialize` with id 7 but invalid params is answered with the `null` id
that `responseIdFor` prescribes. -/
theorem c3_amended_witness :
    rpcIdOf (handleHttpRequest plainOpts "srv" "1.0" []
        (postMcp (some (.obj [("jsonrpc", .str "2.0"), ("id", .num 1),
          ("method", .str "ping")]))) []).response
      = some (some (.num 1)) ∧
    rpcIdOf (handleHttpRequest plainOpts "srv" "1.0" []
        (postMcp (some (.obj [("jsonrpc", .str "2.0"), ("id", .num 7),
          ("method", .str "initialize")]))) []).response
      = some none :=
  ⟨c3_amended plainOpts "srv" "1.0" [] (postMcp (some (.obj [("jsonrpc", .str "2.0"),
      ("id", .num 1), ("method", .str "ping")]))) []
      (.obj [("jsonrpc", .str "2.0"), ("id", .num 1), ("method", .str "ping")])
      ⟨some (.num 1), "ping", none⟩
      (by rfl) (by rfl) rfl (by rfl) (by simp),
   c3_amended plainOpts "srv" "1.0" [] (postMcp (some (.obj [("jsonrpc", .str "2.0"),
      ("id", .num 7), ("method", .str "initialize")]))) []
      (.obj [("jsonrpc", .str "2.0"), ("id", .num 7), ("method", .str "initialize")])
      ⟨some (.num 7), "initialize", none⟩
      (by rfl) (by rfl) rfl (by rfl) (by simp)⟩

end ZeroMcp
